import Mathlib

/-!
Verification of the go.uuid library (package `uuid`).

Shallow embedding conventions:
* a UUID (`type UUID [16]byte`) is a `List Nat` of length 16 whose entries are
  byte values (`< 256`);
* strings / byte slices are `List Nat` of character codes;
* Go machine integers are `Nat` (or `Int` for `int64`) with explicit `% 2^w`
  wherever the Go type system truncates;
* the `unsafe.Pointer` word loads in the `Equal` variants are modelled as
  little-endian word reads (386 and amd64 are little-endian targets);
* process-global state (`lastTime`, `clockSequence`, `hardwareAddr`) is passed
  explicitly, and `getStorage` becomes a step function on that state;
* external effects (crypto/rand, md5/sha1 digests, `time.Now`) are oracle
  parameters: the theorems quantify over every possible value they may supply.
-/

set_option maxRecDepth 4096

namespace GoUUID

/-- UUID layout variants (source: `const ( VariantNCS = iota; VariantRFC4122;
VariantMicrosoft; VariantFuture )`). -/
def VariantNCS : Nat := 0

/-- `VariantRFC4122` layout constant. -/
def VariantRFC4122 : Nat := 1

/-- `VariantMicrosoft` layout constant. -/
def VariantMicrosoft : Nat := 2

/-- `VariantFuture` layout constant. -/
def VariantFuture : Nat := 3

/-- The nil UUID (source: `var Nil UUID`): all 128 bits zero. -/
def nilUUID : List Nat := List.replicate 16 0

/-- `func (u UUID) Version() uint { return uint(u[6] >> 4) }`. -/
def version (u : List Nat) : Nat := u.getD 6 0 >>> 4

/-- The branch logic of `func (u UUID) Variant() uint` applied to byte 8
(`u[8]`):
```
if (u[8] & 0x80) == 0x00 { return VariantNCS }
if (u[8]&0xc0)|0x80 == 0x80 { return VariantRFC4122 }
if (u[8]&0xe0)|0xc0 == 0xc0 { return VariantMicrosoft }
return VariantFuture
``` -/
def variantByte (b : Nat) : Nat :=
  if b &&& 0x80 = 0 then VariantNCS
  else if (b &&& 0xc0) ||| 0x80 = 0x80 then VariantRFC4122
  else if (b &&& 0xe0) ||| 0xc0 = 0xc0 then VariantMicrosoft
  else VariantFuture

/-- `Variant()`: classifies byte 8 of the UUID. -/
def variant (u : List Nat) : Nat := variantByte (u.getD 8 0)

/-- `func (u *UUID) SetVersion(v byte) { u[6] = (u[6] & 0x0f) | (v << 4) }`;
`v << 4` is byte arithmetic, hence the `% 256`. -/
def setVersion (u : List Nat) (v : Nat) : List Nat :=
  u.set 6 ((u.getD 6 0 &&& 0x0f) ||| ((v <<< 4) % 256))

/-- `func (u *UUID) SetVariant() { u[8] = (u[8] & 0xbf) | 0x80 }`. -/
def setVariant (u : List Nat) : List Nat :=
  u.set 8 ((u.getD 8 0 &&& 0xbf) ||| 0x80)

/-- Little-endian 32-bit word load at byte offset `i`: the value of
`*(*uint32)(unsafe.Pointer(&u[i]))` on a little-endian (386) machine. -/
def word32 (u : List Nat) (i : Nat) : Nat :=
  u.getD i 0 + 2 ^ 8 * u.getD (i + 1) 0 + 2 ^ 16 * u.getD (i + 2) 0 +
    2 ^ 24 * u.getD (i + 3) 0

/-- Little-endian 64-bit word load at byte offset `i`: the value of
`*(*uint64)(unsafe.Pointer(&u[i]))` on a little-endian (amd64) machine. -/
def word64 (u : List Nat) (i : Nat) : Nat :=
  u.getD i 0 + 2 ^ 8 * u.getD (i + 1) 0 + 2 ^ 16 * u.getD (i + 2) 0 +
    2 ^ 24 * u.getD (i + 3) 0 + 2 ^ 32 * u.getD (i + 4) 0 +
    2 ^ 40 * u.getD (i + 5) 0 + 2 ^ 48 * u.getD (i + 6) 0 +
    2 ^ 56 * u.getD (i + 7) 0

/-- The `+build 386` variant of `Equal`: four 32-bit word comparisons at
offsets 0, 4, 8, 12. -/
def equal386 (u1 u2 : List Nat) : Bool :=
  (word32 u1 0 == word32 u2 0 && word32 u1 4 == word32 u2 4) &&
    (word32 u1 8 == word32 u2 8 && word32 u1 12 == word32 u2 12)

/-- The `+build amd64` variant of `Equal`: two 64-bit word comparisons at
offsets 0 and 8. -/
def equalAmd64 (u1 u2 : List Nat) : Bool :=
  word64 u1 0 == word64 u2 0 && word64 u1 8 == word64 u2 8

/-- The `+build !unsafe` portable variant of `Equal`: `u1 == u2`. -/
def equalPortable (u1 u2 : List Nat) : Bool := u1 == u2

/-- The runtime-dispatch variant of `Equal` (equal_386.go lines 211-223):
branches on `runtime.GOOS`, comparing 64-bit words on "amd64", 32-bit words on
"386", and falling back to `u1 == u2` otherwise. -/
def equalRuntime (goos : String) (u1 u2 : List Nat) : Bool :=
  if goos = "amd64" then equalAmd64 u1 u2
  else if goos = "386" then equal386 u1 u2
  else equalPortable u1 u2

/-- `func (u UUID) IsNil() bool { return Equal(u, Nil) }`, with `Equal` the
runtime-dispatch variant in the same file. -/
def isNil (goos : String) (u : List Nat) : Bool := equalRuntime goos u nilUUID

/-! ## Text codec -/

/-- `hextable[n]` for `const hextable = "0123456789abcdef"` from
encoding/hex, as a character code. -/
def hextable (n : Nat) : Nat := if n < 10 then 48 + n else 87 + n

/-- encoding/hex `Encode`: each source byte `b` becomes
`hextable[b>>4], hextable[b&0x0f]`. -/
def hexEncode : List Nat → List Nat
  | [] => []
  | b :: bs => hextable (b >>> 4) :: hextable (b &&& 0x0f) :: hexEncode bs

/-- `func (u UUID) Bytes() []byte`: hex-encodes the five byte groups
`u[0:4], u[4:6], u[6:8], u[8:10], u[10:]` separated by dashes (code 45),
producing the canonical 36-character form. `String()` returns the same
characters as a string. -/
def uuidBytes (u : List Nat) : List Nat :=
  hexEncode (u.take 4) ++
    45 :: (hexEncode ((u.drop 4).take 2) ++
      45 :: (hexEncode ((u.drop 6).take 2) ++
        45 :: (hexEncode ((u.drop 8).take 2) ++
          45 :: hexEncode (u.drop 10))))

/-- `var urnPrefix = []byte("urn:uuid:")` as character codes. -/
def urnPrefix : List Nat := [117, 114, 110, 58, 117, 117, 105, 100, 58]

/-- `var byteGroups = [...]int{8, 4, 4, 4, 12}`. -/
def byteGroups : List Nat := [8, 4, 4, 4, 12]

/-- Outcomes `UnmarshalText` / `UnmarshalBinary` can produce, one constructor
per distinct error site; `panicked` models a Go runtime panic (index out of
range on `t[0]`), which is reachable but distinct from an error return. -/
inductive UErr where
  | tooShort
  | tooLong
  | invalidFormat
  | hexError
  | wrongLength
  | panicked
deriving DecidableEq

/-- encoding/hex `fromHexChar`: accepts `0-9`, `a-f`, `A-F`. -/
def fromHexChar (c : Nat) : Option Nat :=
  if 48 ≤ c ∧ c ≤ 57 then some (c - 48)
  else if 97 ≤ c ∧ c ≤ 102 then some (c - 97 + 10)
  else if 65 ≤ c ∧ c ≤ 70 then some (c - 65 + 10)
  else none

/-- encoding/hex `Decode`: consumes the source two characters at a time,
writing `(a << 4) | b` for each decoded pair; on an invalid character (or odd
length) it stops, returning the bytes decoded so far and `false`.  `acc` holds
the decoded bytes in reverse. -/
def hexDecodeAux : List Nat → List Nat → List Nat × Bool
  | acc, [] => (acc.reverse, true)
  | acc, [_] => (acc.reverse, false)
  | acc, c1 :: c2 :: rest =>
    match fromHexChar c1 with
    | none => (acc.reverse, false)
    | some a =>
      match fromHexChar c2 with
      | none => (acc.reverse, false)
      | some b => hexDecodeAux ((a <<< 4 ||| b) :: acc) rest

/-- Overwrite `bs.length` bytes of `u` starting at offset `off` (the effect of
decoding into the slice `b = u[off:]`). -/
def writeAt (u : List Nat) (off : Nat) (bs : List Nat) : List Nat :=
  u.take off ++ bs ++ u.drop (off + bs.length)

/-- Body of one iteration of the `byteGroups` loop in `UnmarshalText`, after
the hyphen handling: the length check, the trailing-content check for the last
group (`i == 4`), and the hex decode.  Returns the decoded bytes (possibly a
partial prefix on a hex error), the remaining input, and the error if any. -/
def groupBody (braced : Bool) (i g : Nat) (t : List Nat) :
    List Nat × List Nat × Option UErr :=
  if t.length < g then ([], t, some UErr.tooShort)
  else if i = 4 ∧ g < t.length ∧
      ((braced = true ∧ t.getD g 0 ≠ 125) ∨ 1 < t.length - g ∨ braced = false) then
    ([], t, some UErr.tooLong)
  else
    match hexDecodeAux [] (t.take g) with
    | (bs, true) => (bs, t.drop g, none)
    | (bs, false) => (bs, t.drop g, some UErr.hexError)

/-- One iteration of the `byteGroups` loop: for `i > 0` first require a
leading hyphen (`t[0] != '-'`; reading `t[0]` of an empty slice panics). -/
def groupStep (braced : Bool) (i g : Nat) (t : List Nat) :
    List Nat × List Nat × Option UErr :=
  if 0 < i then
    match t with
    | [] => ([], t, some UErr.panicked)
    | c :: t2 =>
      if c = 45 then groupBody braced i g t2
      else ([], c :: t2, some UErr.invalidFormat)
  else groupBody braced i g t

/-- The `for i, byteGroup := range byteGroups` loop of `UnmarshalText`:
each group's decoded bytes are written into the receiver at the running
offset (`b = b[byteGroup/2:]`) before any later group is validated. -/
def unmarshalGroups :
    List Nat → Nat → List Nat → Bool → Nat → List Nat → List Nat × Option UErr
  | u, _, _, _, _, [] => (u, none)
  | u, off, t, braced, i, g :: gs =>
    match groupStep braced i g t with
    | (bs, t2, none) =>
      unmarshalGroups (writeAt u off bs) (off + g / 2) t2 braced (i + 1) gs
    | (bs, _, some e) => (writeAt u off bs, some e)

/-- `func (u *UUID) UnmarshalText(text []byte) error`: length window
`32 ≤ len ≤ 45`, optional `urn:uuid:` prefix or opening `{`, then the five
hex groups.  Returns the receiver's bytes after the call together with the
error, if any. -/
def unmarshalText (u text : List Nat) : List Nat × Option UErr :=
  if text.length < 32 then (u, some UErr.tooShort)
  else if 45 < text.length then (u, some UErr.tooLong)
  else if text.take 9 = urnPrefix then
    unmarshalGroups u 0 (text.drop 9) false 0 byteGroups
  else if text.headD 0 = 123 then
    unmarshalGroups u 0 (text.drop 1) true 0 byteGroups
  else unmarshalGroups u 0 text false 0 byteGroups

/-- `func FromString(input string) (u UUID, err error)`: `UnmarshalText` on a
zero-valued receiver. -/
def fromString (text : List Nat) : List Nat × Option UErr :=
  unmarshalText nilUUID text

/-- `func (u *UUID) UnmarshalBinary(data []byte) error`: requires exactly 16
bytes, then copies them over the receiver. -/
def unmarshalBinary (u data : List Nat) : List Nat × Option UErr :=
  if data.length ≠ 16 then (u, some UErr.wrongLength) else (data, none)

/-- `func FromBytes(input []byte) (u UUID, err error)`: `UnmarshalBinary` on a
zero-valued receiver. -/
def fromBytes (data : List Nat) : List Nat × Option UErr :=
  unmarshalBinary nilUUID data

/-- `func (u UUID) MarshalBinary() (data []byte, err error)`: returns `u[:]`. -/
def marshalBinary (u : List Nat) : List Nat := u

/-- Character codes of a string literal. -/
def strBytes (s : String) : List Nat := s.data.map Char.toNat

/-! ## Generation state and generators -/

/-- The process-wide v1/v2 generation state: `lastTime` (uint64, 100ns ticks
since the UUID epoch), `clockSequence` (uint16), `hardwareAddr` (6 bytes). -/
structure Storage where
  lastTime : Nat
  clockSequence : Nat
  hardwareAddr : List Nat

/-- One call of `getStorage()` given the reading `now` supplied by
`epochFunc`: if `now <= lastTime` the clock sequence is incremented (uint16,
wrapping mod `2^16`); `lastTime` is set to `now`; the returned triple is
`(now, seq, addr)`. -/
def getStorageStep (st : Storage) (now : Nat) : Storage × Nat × Nat × List Nat :=
  let seq :=
    if now ≤ st.lastTime then (st.clockSequence + 1) % 2 ^ 16 else st.clockSequence
  (⟨now, seq, st.hardwareAddr⟩, now, seq, st.hardwareAddr)

/-- `binary.BigEndian.PutUint32`: big-endian bytes of a uint32 value. -/
def putUint32BE (v : Nat) : List Nat :=
  [(v >>> 24) % 256, (v >>> 16) % 256, (v >>> 8) % 256, v % 256]

/-- `binary.BigEndian.PutUint16`: big-endian bytes of a uint16 value. -/
def putUint16BE (v : Nat) : List Nat := [(v >>> 8) % 256, v % 256]

/-- `binary.BigEndian.PutUint64`: big-endian bytes of a uint64 value. -/
def putUint64BE (v : Nat) : List Nat :=
  [(v >>> 56) % 256, (v >>> 48) % 256, (v >>> 40) % 256, (v >>> 32) % 256,
    (v >>> 24) % 256, (v >>> 16) % 256, (v >>> 8) % 256, v % 256]

/-- Fill the 6 node-address bytes: `copy(u[10:], hardwareAddr[:])` over the
zero-initialised tail (padding only matters if the model is fed fewer than 6
bytes). -/
def nodeBytes (addr : List Nat) : List Nat :=
  addr.take 6 ++ List.replicate (6 - addr.length) 0

/-- `func NewV1() UUID` with the `getStorage()` results passed explicitly:
time-low from `uint32(timeNow)` into bytes 0-3, `uint16(timeNow>>32)` into
bytes 4-5, `uint16(timeNow>>48)` into bytes 6-7, the clock sequence into
bytes 8-9, the node address into bytes 10-15, then `SetVersion(1)` and
`SetVariant()`.  The `% 2^64` / `% 2^16` make the Go integer types explicit. -/
def newV1 (now seq : Nat) (addr : List Nat) : List Nat :=
  let ts := now % 2 ^ 64
  setVariant (setVersion
    (putUint32BE (ts % 2 ^ 32) ++ putUint16BE ((ts >>> 32) % 2 ^ 16) ++
      putUint16BE ((ts >>> 48) % 2 ^ 16) ++ putUint16BE (seq % 2 ^ 16) ++
      nodeBytes addr) 1)

/-- `func NewV2(domain byte) UUID` with the storage triple and the POSIX
uid/gid passed explicitly: bytes 0-3 are the uid for `DomainPerson` (0), the
gid for `DomainGroup` (1), and stay zero otherwise; then the time-mid/hi and
clock-sequence fields as in v1, `u[9] = domain`, the node address, version 2,
variant. -/
def newV2 (domain now seq uid gid : Nat) (addr : List Nat) : List Nat :=
  let ts := now % 2 ^ 64
  let front :=
    if domain = 0 then putUint32BE (uid % 2 ^ 32)
    else if domain = 1 then putUint32BE (gid % 2 ^ 32)
    else [0, 0, 0, 0]
  setVariant (setVersion
    ((front ++ putUint16BE ((ts >>> 32) % 2 ^ 16) ++
        putUint16BE ((ts >>> 48) % 2 ^ 16) ++
        putUint16BE (seq % 2 ^ 16)).set 9 (domain % 256) ++
      nodeBytes addr) 2)

/-- `newFromHash(h, ns, name)` with the digest `h.Sum(nil)` treated as an
oracle: `copy(u[:], digest)` over a zero-valued UUID takes the first 16
digest bytes (md5 yields exactly 16, sha1 yields 20). -/
def newFromHash (digest : List Nat) : List Nat :=
  digest.take 16 ++ List.replicate (16 - digest.length) 0

/-- `func NewV3(ns UUID, name string) UUID`: md5-hash based, then version 3
and variant bits.  `digest` is the md5 digest oracle for `(ns, name)`. -/
def newV3 (digest : List Nat) : List Nat :=
  setVariant (setVersion (newFromHash digest) 3)

/-- `func NewV4() UUID`: `rand` is the 16-byte CSPRNG oracle filling `u[:]`,
then version 4 and variant bits. -/
def newV4 (rand : List Nat) : List Nat :=
  setVariant (setVersion (rand.take 16 ++ List.replicate (16 - rand.length) 0) 4)

/-- `func NewV5(ns UUID, name string) UUID`: sha1-hash based, then version 5
and variant bits.  `digest` is the sha1 digest oracle for `(ns, name)`. -/
def newV5 (digest : List Nat) : List Nat :=
  setVariant (setVersion (newFromHash digest) 5)

/-- `func NewTime(t time.Time) UUID`: `PutUint64(u[:], uint64(t.Unix()<<24))`
writes the shifted Unix seconds (int64 shift, reinterpreted as uint64: value
`(sec * 2^24) mod 2^64`) into bytes 0-7; `safeRandom(u[5:])` then overwrites
bytes 5-15 with the 11-byte CSPRNG oracle `rand`; finally `SetVersion(6)` and
`SetVariant()`. -/
def newTime (sec : Int) (rand : List Nat) : List Nat :=
  let v : Nat := ((sec * 2 ^ 24) % (2 ^ 64 : Int)).toNat
  setVariant (setVersion
    (writeAt (putUint64BE v ++ List.replicate 8 0) 5
      (rand.take 11 ++ List.replicate (11 - rand.length) 0)) 6)

/-! ## Helper lemmas -/

theorem shiftRight_eq_div (v n : Nat) : v >>> n = v / 2 ^ n :=
  Nat.shiftRight_eq_div_pow v n

theorem hexEncode_length (l : List Nat) : (hexEncode l).length = 2 * l.length := by
  induction l with
  | nil => rfl
  | cons b bs ih => simp [hexEncode, ih]; omega

theorem fromHexChar_hextable : ∀ n < 16, fromHexChar (hextable n) = some n := by
  decide

theorem hex_split : ∀ b < 256, (b >>> 4) <<< 4 ||| (b &&& 15) = b := by decide

theorem shift4_lt {b : Nat} (hb : b < 256) : b >>> 4 < 16 := by
  rw [shiftRight_eq_div]; omega

theorem and15_lt (b : Nat) : b &&& 15 < 16 :=
  Nat.lt_succ_of_le (Nat.and_le_right)

theorem hexDecodeAux_encode :
    ∀ bs acc, (∀ b ∈ bs, b < 256) →
      hexDecodeAux acc (hexEncode bs) = (acc.reverse ++ bs, true) := by
  intro bs
  induction bs with
  | nil => intro acc _; simp [hexEncode, hexDecodeAux]
  | cons b bs ih =>
    intro acc hb
    have hblt : b < 256 := hb b (List.mem_cons_self b bs)
    have h1 := fromHexChar_hextable (b >>> 4) (shift4_lt hblt)
    have h2 := fromHexChar_hextable (b &&& 15) (and15_lt b)
    have h3 := hex_split b hblt
    simp only [hexEncode, hexDecodeAux, h1, h2, h3]
    rw [ih (b :: acc) (fun x hx => hb x (List.mem_cons_of_mem b hx))]
    simp

theorem hextable_ne_117 : ∀ n < 16, hextable n ≠ 117 := by decide

theorem hextable_ne_123 : ∀ n < 16, hextable n ≠ 123 := by decide

/-! ## Claims -/

/-- The RFC 4122 variant table as the spec states it (modelled from the
spec's words, for comparison with the code's `Variant()`): classify byte 8 by
its top bits in priority order, first match wins: top bit `0` → NCS; top bits
`10` → RFC4122; top bits `110` → Microsoft; top bits `111` → Future. -/
def rfcVariantTable (b : Nat) : Nat :=
  if b / 128 % 2 = 0 then VariantNCS
  else if b / 64 % 2 = 0 then VariantRFC4122
  else if b / 32 % 2 = 0 then VariantMicrosoft
  else VariantFuture

theorem variantByte_eq_table : ∀ b < 256, variantByte b = rfcVariantTable b := by
  decide

/-- C3: for every UUID `u` (hence for all 256 possible values of byte 8),
`Variant()` returns exactly the RFC 4122 variant-table classification of the
top bits of byte 8, checked in priority order with the first match winning. -/
theorem c3_variant_matches_rfc_table (u : List Nat) (hu : ∀ b ∈ u, b < 256) :
    variant u = rfcVariantTable (u.getD 8 0) := by
  have hb : u.getD 8 0 < 256 := by
    by_cases h8 : 8 < u.length
    · rw [List.getD_eq_getElem u 0 h8]
      exact hu _ (List.getElem_mem h8)
    · rw [List.getD_eq_default u 0 (by omega)]
      omega
  exact variantByte_eq_table _ hb

/-- Witness for C3 at a concrete UUID with byte 8 = 0xc5. -/
theorem c3_variant_matches_rfc_table_witness :
    variant [0, 0, 0, 0, 0, 0, 0, 0, 197, 0, 0, 0, 0, 0, 0, 0] =
      rfcVariantTable 197 :=
  c3_variant_matches_rfc_table
    [0, 0, 0, 0, 0, 0, 0, 0, 197, 0, 0, 0, 0, 0, 0, 0] (by decide)

/-- C6: the bare, braced and URN-prefixed renderings of
`6ba7b810-9dad-11d1-80b4-00c04fd430c8` are all accepted by
`UnmarshalText`/`Parse` without error and produce the identical 16 bytes. -/
theorem c6_three_accepted_forms :
    fromString (strBytes "6ba7b810-9dad-11d1-80b4-00c04fd430c8") =
        ([107, 167, 184, 16, 157, 173, 17, 209, 128, 180, 0, 192, 79, 212, 48, 200],
          none) ∧
      fromString (strBytes "\x7b6ba7b810-9dad-11d1-80b4-00c04fd430c8\x7d") =
        ([107, 167, 184, 16, 157, 173, 17, 209, 128, 180, 0, 192, 79, 212, 48, 200],
          none) ∧
      fromString (strBytes "urn:uuid:6ba7b810-9dad-11d1-80b4-00c04fd430c8") =
        ([107, 167, 184, 16, 157, 173, 17, 209, 128, 180, 0, 192, 79, 212, 48, 200],
          none) := by
  decide

/-- C1 (evaluation at the failing input): the braced string missing its
closing `}` is NOT rejected — `UnmarshalText` returns no error and fills the
receiver, contradicting the claimed `FormatError`. -/
theorem c1_braced_missing_brace_is_accepted :
    fromString (strBytes "\x7b6ba7b810-9dad-11d1-80b4-00c04fd430c8") =
      ([107, 167, 184, 16, 157, 173, 17, 209, 128, 180, 0, 192, 79, 212, 48, 200],
        none) := by
  decide

/-- C10: `UnmarshalText` is not atomic on failure: there is a receiver value
and an input string for which it returns an error yet leaves the receiver
changed (earlier groups are hex-decoded into the receiver before later groups
are validated). -/
theorem c10_unmarshalText_not_atomic :
    ∃ u0 text, ((unmarshalText u0 text).2.isSome = true ∧
      (unmarshalText u0 text).1 ≠ u0) :=
  ⟨List.replicate 16 255,
    strBytes "6ba7b810-9dad-11d1-80b4-zzc04fd430c8", by decide⟩

/-- C4: `getStorage` as a step relation on `(lastTime, clockSequence)`.
Whenever a step's reading is not strictly greater than the recorded
`lastTime`, the clock sequence is incremented (uint16, wrapping) before being
returned and `lastTime` is updated to the reading; consequently two
consecutive steps whose second reading is not greater than the first return
different `(timestamp, clock sequence)` pairs, so two time-based UUIDs
generated at or before the same tick differ. -/
theorem c4_clock_sequence_step (st : Storage) (n1 n2 : Nat) :
    (n1 ≤ st.lastTime →
      (getStorageStep st n1).2.2.1 = (st.clockSequence + 1) % 2 ^ 16 ∧
        (getStorageStep st n1).1.lastTime = n1) ∧
    (n2 ≤ n1 →
      ((getStorageStep st n1).2.1, (getStorageStep st n1).2.2.1) ≠
        ((getStorageStep (getStorageStep st n1).1 n2).2.1,
          (getStorageStep (getStorageStep st n1).1 n2).2.2.1)) := by
  constructor
  · intro hle
    simp [getStorageStep, hle]
  · intro hle
    simp only [getStorageStep, Prod.mk.injEq, ne_eq]
    intro hc
    obtain ⟨-, hc2⟩ := hc
    rw [if_pos hle] at hc2
    split at hc2 <;> omega

/-- Witness for C4 at a concrete state and pair of readings. -/
theorem c4_clock_sequence_step_witness :
    (100 ≤ 100 →
      (getStorageStep ⟨100, 7, []⟩ 100).2.2.1 = (7 + 1) % 2 ^ 16 ∧
        (getStorageStep ⟨100, 7, []⟩ 100).1.lastTime = 100) ∧
    (100 ≤ 100 →
      ((getStorageStep ⟨100, 7, []⟩ 100).2.1,
          (getStorageStep ⟨100, 7, []⟩ 100).2.2.1) ≠
        ((getStorageStep (getStorageStep ⟨100, 7, []⟩ 100).1 100).2.1,
          (getStorageStep (getStorageStep ⟨100, 7, []⟩ 100).1 100).2.2.1)) :=
  c4_clock_sequence_step ⟨100, 7, []⟩ 100 100

theorem exists_cons_of_length_sixteen (u : List Nat) (h : u.length = 16) :
    ∃ a0 a1 a2 a3 a4 a5 a6 a7 a8 a9 a10 a11 a12 a13 a14 a15,
      u = [a0, a1, a2, a3, a4, a5, a6, a7, a8, a9, a10, a11, a12, a13, a14, a15] := by
  obtain _ | ⟨a0, u⟩ := u; · simp at h
  obtain _ | ⟨a1, u⟩ := u; · simp at h
  obtain _ | ⟨a2, u⟩ := u; · simp at h
  obtain _ | ⟨a3, u⟩ := u; · simp at h
  obtain _ | ⟨a4, u⟩ := u; · simp at h
  obtain _ | ⟨a5, u⟩ := u; · simp at h
  obtain _ | ⟨a6, u⟩ := u; · simp at h
  obtain _ | ⟨a7, u⟩ := u; · simp at h
  obtain _ | ⟨a8, u⟩ := u; · simp at h
  obtain _ | ⟨a9, u⟩ := u; · simp at h
  obtain _ | ⟨a10, u⟩ := u; · simp at h
  obtain _ | ⟨a11, u⟩ := u; · simp at h
  obtain _ | ⟨a12, u⟩ := u; · simp at h
  obtain _ | ⟨a13, u⟩ := u; · simp at h
  obtain _ | ⟨a14, u⟩ := u; · simp at h
  obtain _ | ⟨a15, u⟩ := u; · simp at h
  obtain _ | ⟨a16, u⟩ := u
  · exact ⟨a0, a1, a2, a3, a4, a5, a6, a7, a8, a9, a10, a11, a12, a13, a14, a15, rfl⟩
  · simp only [List.length_cons, List.length_nil] at h
    omega

/-- C9: all build variants of `Equal` — the 386 four-word comparison, the
amd64 two-word comparison, the runtime-dispatch variant for every GOOS value,
and the portable `u1 == u2` — agree on every pair of UUIDs, and each returns
`true` exactly when all 16 bytes coincide. -/
theorem c9_equal_variants_agree (u1 u2 : List Nat) (h1 : u1.length = 16)
    (h2 : u2.length = 16) (hb1 : ∀ b ∈ u1, b < 256) (hb2 : ∀ b ∈ u2, b < 256) :
    equal386 u1 u2 = equalPortable u1 u2 ∧
      equalAmd64 u1 u2 = equalPortable u1 u2 ∧
      (∀ goos, equalRuntime goos u1 u2 = equalPortable u1 u2) ∧
      (equalPortable u1 u2 = true ↔ u1 = u2) := by
  obtain ⟨a0, a1, a2, a3, a4, a5, a6, a7, a8, a9, a10, a11, a12, a13, a14, a15, rfl⟩ :=
    exists_cons_of_length_sixteen u1 h1
  obtain ⟨c0, c1, c2, c3, c4, c5, c6, c7, c8, c9, c10, c11, c12, c13, c14, c15, rfl⟩ :=
    exists_cons_of_length_sixteen u2 h2
  simp only [List.mem_cons, List.not_mem_nil, or_false, forall_eq_or_imp,
    forall_eq] at hb1 hb2
  obtain ⟨ha0, ha1, ha2, ha3, ha4, ha5, ha6, ha7, ha8, ha9, ha10, ha11, ha12,
    ha13, ha14, ha15⟩ := hb1
  obtain ⟨hc0, hc1, hc2, hc3, hc4, hc5, hc6, hc7, hc8, hc9, hc10, hc11, hc12,
    hc13, hc14, hc15⟩ := hb2
  have hport : equalPortable
      [a0, a1, a2, a3, a4, a5, a6, a7, a8, a9, a10, a11, a12, a13, a14, a15]
      [c0, c1, c2, c3, c4, c5, c6, c7, c8, c9, c10, c11, c12, c13, c14, c15] = true ↔
      [a0, a1, a2, a3, a4, a5, a6, a7, a8, a9, a10, a11, a12, a13, a14, a15] =
        [c0, c1, c2, c3, c4, c5, c6, c7, c8, c9, c10, c11, c12, c13, c14, c15] := by
    unfold equalPortable
    exact beq_iff_eq
  have h386 : equal386
      [a0, a1, a2, a3, a4, a5, a6, a7, a8, a9, a10, a11, a12, a13, a14, a15]
      [c0, c1, c2, c3, c4, c5, c6, c7, c8, c9, c10, c11, c12, c13, c14, c15] =
      equalPortable
        [a0, a1, a2, a3, a4, a5, a6, a7, a8, a9, a10, a11, a12, a13, a14, a15]
        [c0, c1, c2, c3, c4, c5, c6, c7, c8, c9, c10, c11, c12, c13, c14, c15] := by
    rw [Bool.eq_iff_iff, hport]
    unfold equal386
    simp only [Bool.and_eq_true, beq_iff_eq, List.cons.injEq, and_true]
    show (word32 _ 0 = word32 _ 0 ∧ word32 _ 4 = word32 _ 4) ∧
        (word32 _ 8 = word32 _ 8 ∧ word32 _ 12 = word32 _ 12) ↔ _
    unfold word32
    simp only [List.getD_cons_zero, List.getD_cons_succ]
    constructor
    · intro h
      obtain ⟨⟨e1, e2⟩, e3, e4⟩ := h
      refine ⟨?_, ?_, ?_, ?_, ?_, ?_, ?_, ?_, ?_, ?_, ?_, ?_, ?_, ?_, ?_, ?_⟩ <;> omega
    · intro h
      obtain ⟨e0, e1, e2, e3, e4, e5, e6, e7, e8, e9, e10, e11, e12, e13, e14, e15⟩ := h
      subst e0 e1 e2 e3 e4 e5 e6 e7 e8 e9 e10 e11 e12 e13 e14 e15
      exact ⟨⟨rfl, rfl⟩, rfl, rfl⟩
  have hamd : equalAmd64
      [a0, a1, a2, a3, a4, a5, a6, a7, a8, a9, a10, a11, a12, a13, a14, a15]
      [c0, c1, c2, c3, c4, c5, c6, c7, c8, c9, c10, c11, c12, c13, c14, c15] =
      equalPortable
        [a0, a1, a2, a3, a4, a5, a6, a7, a8, a9, a10, a11, a12, a13, a14, a15]
        [c0, c1, c2, c3, c4, c5, c6, c7, c8, c9, c10, c11, c12, c13, c14, c15] := by
    rw [Bool.eq_iff_iff, hport]
    unfold equalAmd64
    simp only [Bool.and_eq_true, beq_iff_eq, List.cons.injEq, and_true]
    show word64 _ 0 = word64 _ 0 ∧ word64 _ 8 = word64 _ 8 ↔ _
    unfold word64
    simp only [List.getD_cons_zero, List.getD_cons_succ]
    constructor
    · intro h
      obtain ⟨e1, e2⟩ := h
      refine ⟨?_, ?_, ?_, ?_, ?_, ?_, ?_, ?_, ?_, ?_, ?_, ?_, ?_, ?_, ?_, ?_⟩ <;> omega
    · intro h
      obtain ⟨e0, e1, e2, e3, e4, e5, e6, e7, e8, e9, e10, e11, e12, e13, e14, e15⟩ := h
      subst e0 e1 e2 e3 e4 e5 e6 e7 e8 e9 e10 e11 e12 e13 e14 e15
      exact ⟨rfl, rfl⟩
  refine ⟨h386, hamd, ?_, hport⟩
  intro goos
  unfold equalRuntime
  split
  · exact hamd
  · split
    · exact h386
    · rfl

/-- Witness for C9 at two concrete UUID values differing in one byte. -/
theorem c9_equal_variants_agree_witness :
    equal386 [0, 0, 0, 0, 0, 0, 0, 0, 0, 0, 0, 0, 0, 0, 0, 0]
        [1, 0, 0, 0, 0, 0, 0, 0, 0, 0, 0, 0, 0, 0, 0, 0] =
      equalPortable [0, 0, 0, 0, 0, 0, 0, 0, 0, 0, 0, 0, 0, 0, 0, 0]
        [1, 0, 0, 0, 0, 0, 0, 0, 0, 0, 0, 0, 0, 0, 0, 0] ∧
    equalAmd64 [0, 0, 0, 0, 0, 0, 0, 0, 0, 0, 0, 0, 0, 0, 0, 0]
        [1, 0, 0, 0, 0, 0, 0, 0, 0, 0, 0, 0, 0, 0, 0, 0] =
      equalPortable [0, 0, 0, 0, 0, 0, 0, 0, 0, 0, 0, 0, 0, 0, 0, 0]
        [1, 0, 0, 0, 0, 0, 0, 0, 0, 0, 0, 0, 0, 0, 0, 0] ∧
    (∀ goos, equalRuntime goos [0, 0, 0, 0, 0, 0, 0, 0, 0, 0, 0, 0, 0, 0, 0, 0]
        [1, 0, 0, 0, 0, 0, 0, 0, 0, 0, 0, 0, 0, 0, 0, 0] =
      equalPortable [0, 0, 0, 0, 0, 0, 0, 0, 0, 0, 0, 0, 0, 0, 0, 0]
        [1, 0, 0, 0, 0, 0, 0, 0, 0, 0, 0, 0, 0, 0, 0, 0]) ∧
    (equalPortable [0, 0, 0, 0, 0, 0, 0, 0, 0, 0, 0, 0, 0, 0, 0, 0]
        [1, 0, 0, 0, 0, 0, 0, 0, 0, 0, 0, 0, 0, 0, 0, 0] = true ↔
      [0, 0, 0, 0, 0, 0, 0, 0, 0, 0, 0, 0, 0, 0, 0, 0] =
        [1, 0, 0, 0, 0, 0, 0, 0, 0, 0, 0, 0, 0, 0, 0, 0]) :=
  c9_equal_variants_agree _ _ (by decide) (by decide) (by decide) (by decide)

theorem getD_set_same (l : List Nat) (a i : Nat) (h : i < l.length) :
    (l.set i a).getD i 0 = a := by
  rw [List.getD_eq_getElem _ 0 (by simpa using h)]
  simp

theorem getD_set_other (l : List Nat) (a : Nat) (i j : Nat) (hij : i ≠ j) :
    (l.set i a).getD j 0 = l.getD j 0 := by
  by_cases h : j < l.length
  · rw [List.getD_eq_getElem _ 0 (by simpa using h), List.getD_eq_getElem _ 0 h]
    rw [List.getElem_set_ne]
    exact hij
  · rw [List.getD_eq_default _ 0 (by simp; omega), List.getD_eq_default _ 0 (by omega)]

theorem or128_bounds : ∀ y ≤ 191, 128 ≤ y ||| 128 ∧ y ||| 128 < 256 := by decide

theorem byte8_setVariant_ge (w : List Nat) (hw : 8 < w.length) :
    128 ≤ (setVariant w).getD 8 0 := by
  unfold setVariant
  rw [getD_set_same _ _ _ hw]
  exact (or128_bounds _ Nat.and_le_right).1

theorem word64_ge_byte8 (u : List Nat) : u.getD 8 0 ≤ word64 u 8 := by
  unfold word64
  omega

theorem word32_ge_byte8 (u : List Nat) : u.getD 8 0 ≤ word32 u 8 := by
  unfold word32
  omega

theorem isNil_false_of_byte8 (goos : String) (u : List Nat)
    (h : 128 ≤ u.getD 8 0) : isNil goos u = false := by
  have hnil : u ≠ nilUUID := by
    intro he
    have h0 : u.getD 8 0 = 0 := by rw [he]; rfl
    omega
  unfold isNil equalRuntime
  split
  · unfold equalAmd64
    have hz : word64 nilUUID 8 = 0 := rfl
    have hcmp : (word64 u 8 == word64 nilUUID 8) = false := by
      rw [hz]
      have hg : 128 ≤ word64 u 8 := le_trans h (word64_ge_byte8 u)
      simp only [beq_eq_false_iff_ne, ne_eq]
      omega
    simp [hcmp]
  · split
    · unfold equal386
      have hz : word32 nilUUID 8 = 0 := rfl
      have hcmp : (word32 u 8 == word32 nilUUID 8) = false := by
        rw [hz]
        have hg : 128 ≤ word32 u 8 := le_trans h (word32_ge_byte8 u)
        simp only [beq_eq_false_iff_ne, ne_eq]
        omega
      simp [hcmp]
    · unfold equalPortable
      simp [hnil]

theorem isNil_setVS_false (goos : String) (w : List Nat) (v : Nat)
    (hw : w.length = 16) : isNil goos (setVariant (setVersion w v)) = false := by
  apply isNil_false_of_byte8
  have h1 : (setVersion w v).length = 16 := by simp [setVersion, hw]
  exact byte8_setVariant_ge _ (by omega)

theorem version_nibble : ∀ v < 16, ∀ y ≤ 15, (y ||| ((v <<< 4) % 256)) >>> 4 = v := by
  decide

theorem version_setVS (w : List Nat) (v : Nat) (hw : w.length = 16) (hv : v < 16) :
    version (setVariant (setVersion w v)) = v := by
  unfold version setVariant setVersion
  rw [getD_set_other _ _ 8 6 (by omega)]
  rw [getD_set_same _ _ 6 (by simp [hw])]
  exact version_nibble v hv _ Nat.and_le_right

theorem newV1_core_length (now seq : Nat) (addr : List Nat) :
    (putUint32BE (now % 2 ^ 64 % 2 ^ 32) ++
      putUint16BE (((now % 2 ^ 64) >>> 32) % 2 ^ 16) ++
      putUint16BE (((now % 2 ^ 64) >>> 48) % 2 ^ 16) ++
      putUint16BE (seq % 2 ^ 16) ++ nodeBytes addr).length = 16 := by
  simp [putUint32BE, putUint16BE, nodeBytes]
  omega

theorem newV2_core_length (domain now seq uid gid : Nat) (addr : List Nat) :
    (((if domain = 0 then putUint32BE (uid % 2 ^ 32)
        else if domain = 1 then putUint32BE (gid % 2 ^ 32)
        else [0, 0, 0, 0]) ++
      putUint16BE (((now % 2 ^ 64) >>> 32) % 2 ^ 16) ++
      putUint16BE (((now % 2 ^ 64) >>> 48) % 2 ^ 16) ++
      putUint16BE (seq % 2 ^ 16)).set 9 (domain % 256) ++ nodeBytes addr).length = 16 := by
  by_cases h0 : domain = 0 <;> by_cases h1 : domain = 1 <;>
    simp [h0, h1, putUint32BE, putUint16BE, nodeBytes] <;> omega

theorem newFromHash_length (digest : List Nat) : (newFromHash digest).length = 16 := by
  simp [newFromHash]
  omega

theorem newV4_core_length (rand : List Nat) :
    (rand.take 16 ++ List.replicate (16 - rand.length) 0).length = 16 := by
  simp
  omega

theorem newTime_core_length (sec : Int) (rand : List Nat) :
    (writeAt (putUint64BE (((sec * 2 ^ 24) % (2 ^ 64 : Int)).toNat) ++
        List.replicate 8 0) 5
      (rand.take 11 ++ List.replicate (11 - rand.length) 0)).length = 16 := by
  simp [writeAt, putUint64BE]
  omega

/-- C8: `IsNil()` is true of the all-zero UUID (under every `runtime.GOOS`
dispatch branch of `Equal`), and every generator — `NewV1`, `NewV2`, `NewV3`,
`NewV4`, `NewV5`, `NewTime` — produces, for every possible random input, hash
digest and generation-state value, a UUID with `IsNil()` false: each sets a
non-zero version nibble in byte 6 (the version value is proved alongside) and
the RFC 4122 variant bits in byte 8, so the output is never all-zero. -/
theorem c8_nil_never_generated (goos : String) :
    isNil goos nilUUID = true ∧
    (∀ now seq addr, isNil goos (newV1 now seq addr) = false ∧
      version (newV1 now seq addr) = 1) ∧
    (∀ domain now seq uid gid addr,
      isNil goos (newV2 domain now seq uid gid addr) = false ∧
        version (newV2 domain now seq uid gid addr) = 2) ∧
    (∀ digest, isNil goos (newV3 digest) = false ∧ version (newV3 digest) = 3) ∧
    (∀ rand, isNil goos (newV4 rand) = false ∧ version (newV4 rand) = 4) ∧
    (∀ digest, isNil goos (newV5 digest) = false ∧ version (newV5 digest) = 5) ∧
    (∀ sec rand, isNil goos (newTime sec rand) = false ∧
      version (newTime sec rand) = 6) := by
  refine ⟨?_, ?_, ?_, ?_, ?_, ?_, ?_⟩
  · unfold isNil equalRuntime
    split
    · decide
    · split
      · decide
      · decide
  · intro now seq addr
    exact ⟨isNil_setVS_false goos _ 1 (newV1_core_length now seq addr),
      version_setVS _ 1 (newV1_core_length now seq addr) (by omega)⟩
  · intro domain now seq uid gid addr
    exact ⟨isNil_setVS_false goos _ 2 (newV2_core_length domain now seq uid gid addr),
      version_setVS _ 2 (newV2_core_length domain now seq uid gid addr) (by omega)⟩
  · intro digest
    exact ⟨isNil_setVS_false goos _ 3 (newFromHash_length digest),
      version_setVS _ 3 (newFromHash_length digest) (by omega)⟩
  · intro rand
    exact ⟨isNil_setVS_false goos _ 4 (newV4_core_length rand),
      version_setVS _ 4 (newV4_core_length rand) (by omega)⟩
  · intro digest
    exact ⟨isNil_setVS_false goos _ 5 (newFromHash_length digest),
      version_setVS _ 5 (newFromHash_length digest) (by omega)⟩
  · intro sec rand
    exact ⟨isNil_setVS_false goos _ 6 (newTime_core_length sec rand),
      version_setVS _ 6 (newTime_core_length sec rand) (by omega)⟩

theorem exists_cons_of_length_six (u : List Nat) (h : u.length = 6) :
    ∃ a0 a1 a2 a3 a4 a5, u = [a0, a1, a2, a3, a4, a5] := by
  obtain _ | ⟨a0, u⟩ := u; · simp at h
  obtain _ | ⟨a1, u⟩ := u; · simp at h
  obtain _ | ⟨a2, u⟩ := u; · simp at h
  obtain _ | ⟨a3, u⟩ := u; · simp at h
  obtain _ | ⟨a4, u⟩ := u; · simp at h
  obtain _ | ⟨a5, u⟩ := u; · simp at h
  obtain _ | ⟨a6, u⟩ := u
  · exact ⟨a0, a1, a2, a3, a4, a5, rfl⟩
  · simp only [List.length_cons, List.length_nil] at h
    omega

theorem and15_or16 : ∀ b < 256, (b &&& 15) ||| 16 = b % 16 + 16 := by decide

theorem and191_or128 : ∀ b < 256, (b &&& 191) ||| 128 = b % 64 + 128 := by decide

theorem variantByte_128 : ∀ x < 64, variantByte (x + 128) = VariantRFC4122 := by
  decide

/-- C5: for every generation-state triple `(now, seq, addr)` read by `NewV1`
(`now` a uint64 timestamp, `seq` a uint16 clock sequence, `addr` 6 node
bytes), the produced UUID has bytes 0-3 equal to the low 32 timestamp bits
big-endian, bytes 4-5 equal to timestamp bits 32-47, bytes 6-7 equal to bits
48-63 with the high nibble of byte 6 overwritten so that `Version() = 1`,
bytes 8-9 equal to the clock sequence with the variant bits of byte 8 set so
that `Variant() = RFC4122`, and bytes 10-15 equal to the node address. -/
theorem c5_newV1_layout (now seq : Nat) (addr : List Nat)
    (hnow : now < 2 ^ 64) (hseq : seq < 2 ^ 16) (haddr : addr.length = 6) :
    ((newV1 now seq addr).getD 0 0 = now / 2 ^ 24 % 256 ∧
      (newV1 now seq addr).getD 1 0 = now / 2 ^ 16 % 256 ∧
      (newV1 now seq addr).getD 2 0 = now / 2 ^ 8 % 256 ∧
      (newV1 now seq addr).getD 3 0 = now % 256) ∧
    ((newV1 now seq addr).getD 4 0 = now / 2 ^ 40 % 256 ∧
      (newV1 now seq addr).getD 5 0 = now / 2 ^ 32 % 256) ∧
    ((newV1 now seq addr).getD 6 0 = now / 2 ^ 56 % 16 + 16 ∧
      (newV1 now seq addr).getD 7 0 = now / 2 ^ 48 % 256 ∧
      version (newV1 now seq addr) = 1) ∧
    ((newV1 now seq addr).getD 8 0 = seq / 2 ^ 8 % 64 + 128 ∧
      (newV1 now seq addr).getD 9 0 = seq % 256 ∧
      variant (newV1 now seq addr) = VariantRFC4122) ∧
    (∀ i, i < 6 → (newV1 now seq addr).getD (10 + i) 0 = addr.getD i 0) := by
  obtain ⟨a0, a1, a2, a3, a4, a5, rfl⟩ := exists_cons_of_length_six addr haddr
  have h0 : (newV1 now seq [a0, a1, a2, a3, a4, a5]).getD 0 0 =
      (((now % 2 ^ 64) % 2 ^ 32) >>> 24) % 256 := rfl
  have h1 : (newV1 now seq [a0, a1, a2, a3, a4, a5]).getD 1 0 =
      (((now % 2 ^ 64) % 2 ^ 32) >>> 16) % 256 := rfl
  have h2 : (newV1 now seq [a0, a1, a2, a3, a4, a5]).getD 2 0 =
      (((now % 2 ^ 64) % 2 ^ 32) >>> 8) % 256 := rfl
  have h3 : (newV1 now seq [a0, a1, a2, a3, a4, a5]).getD 3 0 =
      ((now % 2 ^ 64) % 2 ^ 32) % 256 := rfl
  have h4 : (newV1 now seq [a0, a1, a2, a3, a4, a5]).getD 4 0 =
      ((((now % 2 ^ 64) >>> 32) % 2 ^ 16) >>> 8) % 256 := rfl
  have h5 : (newV1 now seq [a0, a1, a2, a3, a4, a5]).getD 5 0 =
      (((now % 2 ^ 64) >>> 32) % 2 ^ 16) % 256 := rfl
  have h6 : (newV1 now seq [a0, a1, a2, a3, a4, a5]).getD 6 0 =
      ((((((now % 2 ^ 64) >>> 48) % 2 ^ 16) >>> 8) % 256) &&& 15) ||| 16 := rfl
  have h7 : (newV1 now seq [a0, a1, a2, a3, a4, a5]).getD 7 0 =
      (((now % 2 ^ 64) >>> 48) % 2 ^ 16) % 256 := rfl
  have h8 : (newV1 now seq [a0, a1, a2, a3, a4, a5]).getD 8 0 =
      ((((seq % 2 ^ 16) >>> 8) % 256) &&& 191) ||| 128 := rfl
  have h9 : (newV1 now seq [a0, a1, a2, a3, a4, a5]).getD 9 0 =
      (seq % 2 ^ 16) % 256 := rfl
  have hx6 : ((((now % 2 ^ 64) >>> 48) % 2 ^ 16) >>> 8) % 256 < 256 :=
    Nat.mod_lt _ (by omega)
  have hx8 : (((seq % 2 ^ 16) >>> 8) % 256) < 256 := Nat.mod_lt _ (by omega)
  refine ⟨⟨?_, ?_, ?_, ?_⟩, ⟨?_, ?_⟩, ⟨?_, ?_, ?_⟩, ⟨?_, ?_, ?_⟩, ?_⟩
  · rw [h0]; simp only [shiftRight_eq_div]; omega
  · rw [h1]; simp only [shiftRight_eq_div]; omega
  · rw [h2]; simp only [shiftRight_eq_div]; omega
  · rw [h3]; omega
  · rw [h4]; simp only [shiftRight_eq_div]; omega
  · rw [h5]; simp only [shiftRight_eq_div]; omega
  · rw [h6, and15_or16 _ hx6]; simp only [shiftRight_eq_div]; omega
  · rw [h7]; simp only [shiftRight_eq_div]; omega
  · unfold version
    rw [h6, and15_or16 _ hx6]
    simp only [shiftRight_eq_div]
    omega
  · rw [h8, and191_or128 _ hx8]; simp only [shiftRight_eq_div]; omega
  · rw [h9]; omega
  · unfold variant
    rw [h8, and191_or128 _ hx8]
    exact variantByte_128 _ (by omega)
  · intro i hi
    interval_cases i <;> rfl

/-- Witness for C5 at a concrete state triple. -/
theorem c5_newV1_layout_witness :
    ((newV1 81985529216486895 13124 [17, 34, 51, 68, 85, 102]).getD 0 0 =
        81985529216486895 / 2 ^ 24 % 256 ∧
      (newV1 81985529216486895 13124 [17, 34, 51, 68, 85, 102]).getD 1 0 =
        81985529216486895 / 2 ^ 16 % 256 ∧
      (newV1 81985529216486895 13124 [17, 34, 51, 68, 85, 102]).getD 2 0 =
        81985529216486895 / 2 ^ 8 % 256 ∧
      (newV1 81985529216486895 13124 [17, 34, 51, 68, 85, 102]).getD 3 0 =
        81985529216486895 % 256) ∧
    ((newV1 81985529216486895 13124 [17, 34, 51, 68, 85, 102]).getD 4 0 =
        81985529216486895 / 2 ^ 40 % 256 ∧
      (newV1 81985529216486895 13124 [17, 34, 51, 68, 85, 102]).getD 5 0 =
        81985529216486895 / 2 ^ 32 % 256) ∧
    ((newV1 81985529216486895 13124 [17, 34, 51, 68, 85, 102]).getD 6 0 =
        81985529216486895 / 2 ^ 56 % 16 + 16 ∧
      (newV1 81985529216486895 13124 [17, 34, 51, 68, 85, 102]).getD 7 0 =
        81985529216486895 / 2 ^ 48 % 256 ∧
      version (newV1 81985529216486895 13124 [17, 34, 51, 68, 85, 102]) = 1) ∧
    ((newV1 81985529216486895 13124 [17, 34, 51, 68, 85, 102]).getD 8 0 =
        13124 / 2 ^ 8 % 64 + 128 ∧
      (newV1 81985529216486895 13124 [17, 34, 51, 68, 85, 102]).getD 9 0 =
        13124 % 256 ∧
      variant (newV1 81985529216486895 13124 [17, 34, 51, 68, 85, 102]) =
        VariantRFC4122) ∧
    (∀ i, i < 6 →
      (newV1 81985529216486895 13124 [17, 34, 51, 68, 85, 102]).getD (10 + i) 0 =
        [17, 34, 51, 68, 85, 102].getD i 0) :=
  c5_newV1_layout 81985529216486895 13124 [17, 34, 51, 68, 85, 102]
    (by decide) (by decide) (by decide)

theorem exists_cons_of_length_eleven (u : List Nat) (h : u.length = 11) :
    ∃ a0 a1 a2 a3 a4 a5 a6 a7 a8 a9 a10,
      u = [a0, a1, a2, a3, a4, a5, a6, a7, a8, a9, a10] := by
  obtain _ | ⟨a0, u⟩ := u; · simp at h
  obtain _ | ⟨a1, u⟩ := u; · simp at h
  obtain _ | ⟨a2, u⟩ := u; · simp at h
  obtain _ | ⟨a3, u⟩ := u; · simp at h
  obtain _ | ⟨a4, u⟩ := u; · simp at h
  obtain _ | ⟨a5, u⟩ := u; · simp at h
  obtain _ | ⟨a6, u⟩ := u; · simp at h
  obtain _ | ⟨a7, u⟩ := u; · simp at h
  obtain _ | ⟨a8, u⟩ := u; · simp at h
  obtain _ | ⟨a9, u⟩ := u; · simp at h
  obtain _ | ⟨a10, u⟩ := u; · simp at h
  obtain _ | ⟨a11, u⟩ := u
  · exact ⟨a0, a1, a2, a3, a4, a5, a6, a7, a8, a9, a10, rfl⟩
  · simp only [List.length_cons, List.length_nil] at h
    omega

theorem and15_or96 : ∀ b < 256, (b &&& 15) ||| 96 = b % 16 + 96 := by decide

/-- C7: for every time value (its Unix seconds `sec`, an int64) and every
11-byte random fill, `NewTime` produces a UUID whose first 5 bytes are the
low 40 bits of `sec` in big-endian order — the top 5 bytes of the 64-bit
value `(sec << 24) mod 2^64`, with no overflow handling beyond that natural
truncation — whose remaining 11 bytes come from the random fill, with the
version nibble of byte 6 then set to 6 and the variant bits of byte 8 set to
the RFC 4122 pattern. -/
theorem c7_newTime_layout (sec : Int) (rand : List Nat)
    (hr : rand.length = 11) (hb : ∀ b ∈ rand, b < 256) :
    ((newTime sec rand).getD 0 0 = (sec % (2 ^ 40 : Int)).toNat / 2 ^ 32 % 256 ∧
      (newTime sec rand).getD 1 0 = (sec % (2 ^ 40 : Int)).toNat / 2 ^ 24 % 256 ∧
      (newTime sec rand).getD 2 0 = (sec % (2 ^ 40 : Int)).toNat / 2 ^ 16 % 256 ∧
      (newTime sec rand).getD 3 0 = (sec % (2 ^ 40 : Int)).toNat / 2 ^ 8 % 256 ∧
      (newTime sec rand).getD 4 0 = (sec % (2 ^ 40 : Int)).toNat % 256) ∧
    ((newTime sec rand).getD 5 0 = rand.getD 0 0 ∧
      (newTime sec rand).getD 6 0 = rand.getD 1 0 % 16 + 96 ∧
      (newTime sec rand).getD 7 0 = rand.getD 2 0 ∧
      (newTime sec rand).getD 8 0 = rand.getD 3 0 % 64 + 128 ∧
      (∀ i, 4 ≤ i → i < 11 → (newTime sec rand).getD (5 + i) 0 = rand.getD i 0)) ∧
    version (newTime sec rand) = 6 ∧ variant (newTime sec rand) = VariantRFC4122 := by
  obtain ⟨r0, r1, r2, r3, r4, r5, r6, r7, r8, r9, r10, rfl⟩ :=
    exists_cons_of_length_eleven rand hr
  simp only [List.mem_cons, List.not_mem_nil, or_false, forall_eq_or_imp,
    forall_eq] at hb
  obtain ⟨hr0, hr1, hr2, hr3, hr4, hr5, hr6, hr7, hr8, hr9, hr10⟩ := hb
  have hv : ((sec * 2 ^ 24) % (2 ^ 64 : Int)).toNat =
      (sec % (2 ^ 40 : Int)).toNat * 2 ^ 24 := by
    omega
  have h0 : (newTime sec [r0, r1, r2, r3, r4, r5, r6, r7, r8, r9, r10]).getD 0 0 =
      (((sec * 2 ^ 24) % (2 ^ 64 : Int)).toNat >>> 56) % 256 := rfl
  have h1 : (newTime sec [r0, r1, r2, r3, r4, r5, r6, r7, r8, r9, r10]).getD 1 0 =
      (((sec * 2 ^ 24) % (2 ^ 64 : Int)).toNat >>> 48) % 256 := rfl
  have h2 : (newTime sec [r0, r1, r2, r3, r4, r5, r6, r7, r8, r9, r10]).getD 2 0 =
      (((sec * 2 ^ 24) % (2 ^ 64 : Int)).toNat >>> 40) % 256 := rfl
  have h3 : (newTime sec [r0, r1, r2, r3, r4, r5, r6, r7, r8, r9, r10]).getD 3 0 =
      (((sec * 2 ^ 24) % (2 ^ 64 : Int)).toNat >>> 32) % 256 := rfl
  have h4 : (newTime sec [r0, r1, r2, r3, r4, r5, r6, r7, r8, r9, r10]).getD 4 0 =
      (((sec * 2 ^ 24) % (2 ^ 64 : Int)).toNat >>> 24) % 256 := rfl
  have h6 : (newTime sec [r0, r1, r2, r3, r4, r5, r6, r7, r8, r9, r10]).getD 6 0 =
      (r1 &&& 15) ||| 96 := rfl
  have h8 : (newTime sec [r0, r1, r2, r3, r4, r5, r6, r7, r8, r9, r10]).getD 8 0 =
      (r3 &&& 191) ||| 128 := rfl
  have hs : 0 ≤ sec % (2 ^ 40 : Int) := Int.emod_nonneg sec (by omega)
  refine ⟨⟨?_, ?_, ?_, ?_, ?_⟩, ⟨rfl, ?_, rfl, ?_, ?_⟩, ?_, ?_⟩
  · rw [h0, hv]; simp only [shiftRight_eq_div]; omega
  · rw [h1, hv]; simp only [shiftRight_eq_div]; omega
  · rw [h2, hv]; simp only [shiftRight_eq_div]; omega
  · rw [h3, hv]; simp only [shiftRight_eq_div]; omega
  · rw [h4, hv]; simp only [shiftRight_eq_div]; omega
  · rw [h6, and15_or96 _ hr1]; rfl
  · rw [h8, and191_or128 _ hr3]; rfl
  · intro i h4le h11
    interval_cases i <;> rfl
  · unfold version
    rw [h6, and15_or96 _ hr1]
    simp only [shiftRight_eq_div]
    omega
  · unfold variant
    rw [h8, and191_or128 _ hr3]
    exact variantByte_128 _ (by omega)

/-- Witness for C7 at a concrete time and random fill. -/
theorem c7_newTime_layout_witness :
    ((newTime 1700000000 [1, 2, 3, 4, 5, 6, 7, 8, 9, 10, 11]).getD 0 0 =
        ((1700000000 : Int) % (2 ^ 40 : Int)).toNat / 2 ^ 32 % 256 ∧
      (newTime 1700000000 [1, 2, 3, 4, 5, 6, 7, 8, 9, 10, 11]).getD 1 0 =
        ((1700000000 : Int) % (2 ^ 40 : Int)).toNat / 2 ^ 24 % 256 ∧
      (newTime 1700000000 [1, 2, 3, 4, 5, 6, 7, 8, 9, 10, 11]).getD 2 0 =
        ((1700000000 : Int) % (2 ^ 40 : Int)).toNat / 2 ^ 16 % 256 ∧
      (newTime 1700000000 [1, 2, 3, 4, 5, 6, 7, 8, 9, 10, 11]).getD 3 0 =
        ((1700000000 : Int) % (2 ^ 40 : Int)).toNat / 2 ^ 8 % 256 ∧
      (newTime 1700000000 [1, 2, 3, 4, 5, 6, 7, 8, 9, 10, 11]).getD 4 0 =
        ((1700000000 : Int) % (2 ^ 40 : Int)).toNat % 256) ∧
    ((newTime 1700000000 [1, 2, 3, 4, 5, 6, 7, 8, 9, 10, 11]).getD 5 0 =
        [1, 2, 3, 4, 5, 6, 7, 8, 9, 10, 11].getD 0 0 ∧
      (newTime 1700000000 [1, 2, 3, 4, 5, 6, 7, 8, 9, 10, 11]).getD 6 0 =
        [1, 2, 3, 4, 5, 6, 7, 8, 9, 10, 11].getD 1 0 % 16 + 96 ∧
      (newTime 1700000000 [1, 2, 3, 4, 5, 6, 7, 8, 9, 10, 11]).getD 7 0 =
        [1, 2, 3, 4, 5, 6, 7, 8, 9, 10, 11].getD 2 0 ∧
      (newTime 1700000000 [1, 2, 3, 4, 5, 6, 7, 8, 9, 10, 11]).getD 8 0 =
        [1, 2, 3, 4, 5, 6, 7, 8, 9, 10, 11].getD 3 0 % 64 + 128 ∧
      (∀ i, 4 ≤ i → i < 11 →
        (newTime 1700000000 [1, 2, 3, 4, 5, 6, 7, 8, 9, 10, 11]).getD (5 + i) 0 =
          [1, 2, 3, 4, 5, 6, 7, 8, 9, 10, 11].getD i 0)) ∧
    version (newTime 1700000000 [1, 2, 3, 4, 5, 6, 7, 8, 9, 10, 11]) = 6 ∧
    variant (newTime 1700000000 [1, 2, 3, 4, 5, 6, 7, 8, 9, 10, 11]) =
      VariantRFC4122 :=
  c7_newTime_layout 1700000000 [1, 2, 3, 4, 5, 6, 7, 8, 9, 10, 11]
    (by decide) (by decide)

/-- C2: round-trip.  For every UUID value (16 bytes `b0..b15`), parsing the
canonical 36-character string produced by `Bytes()`/`String()` succeeds and
returns exactly the same 16 bytes, and `FromBytes` of the 16-byte binary form
(`MarshalBinary`) succeeds and returns the same bytes. -/
theorem c2_roundtrip (b0 b1 b2 b3 b4 b5 b6 b7 b8 b9 b10 b11 b12 b13 b14 b15 : Nat)
    (h : ∀ b ∈ [b0, b1, b2, b3, b4, b5, b6, b7, b8, b9, b10, b11, b12, b13, b14,
      b15], b < 256) :
    fromString (uuidBytes
        [b0, b1, b2, b3, b4, b5, b6, b7, b8, b9, b10, b11, b12, b13, b14, b15]) =
      ([b0, b1, b2, b3, b4, b5, b6, b7, b8, b9, b10, b11, b12, b13, b14, b15],
        none) ∧
    fromBytes (marshalBinary
        [b0, b1, b2, b3, b4, b5, b6, b7, b8, b9, b10, b11, b12, b13, b14, b15]) =
      ([b0, b1, b2, b3, b4, b5, b6, b7, b8, b9, b10, b11, b12, b13, b14, b15],
        none) := by
  simp only [List.mem_cons, List.not_mem_nil, or_false, forall_eq_or_imp,
    forall_eq] at h
  obtain ⟨hb0, hb1, hb2, hb3, hb4, hb5, hb6, hb7, hb8, hb9, hb10, hb11, hb12,
    hb13, hb14, hb15⟩ := h
  refine ⟨?_, rfl⟩
  have d0 : hexDecodeAux [] (hexEncode [b0, b1, b2, b3]) = ([b0, b1, b2, b3], true) := by
    rw [hexDecodeAux_encode [b0, b1, b2, b3] []
      (by simp only [List.mem_cons, List.not_mem_nil, or_false, forall_eq_or_imp,
        forall_eq]; exact ⟨hb0, hb1, hb2, hb3⟩)]
    rfl
  have d1 : hexDecodeAux [] (hexEncode [b4, b5]) = ([b4, b5], true) := by
    rw [hexDecodeAux_encode [b4, b5] []
      (by simp only [List.mem_cons, List.not_mem_nil, or_false, forall_eq_or_imp,
        forall_eq]; exact ⟨hb4, hb5⟩)]
    rfl
  have d2 : hexDecodeAux [] (hexEncode [b6, b7]) = ([b6, b7], true) := by
    rw [hexDecodeAux_encode [b6, b7] []
      (by simp only [List.mem_cons, List.not_mem_nil, or_false, forall_eq_or_imp,
        forall_eq]; exact ⟨hb6, hb7⟩)]
    rfl
  have d3 : hexDecodeAux [] (hexEncode [b8, b9]) = ([b8, b9], true) := by
    rw [hexDecodeAux_encode [b8, b9] []
      (by simp only [List.mem_cons, List.not_mem_nil, or_false, forall_eq_or_imp,
        forall_eq]; exact ⟨hb8, hb9⟩)]
    rfl
  have d4 : hexDecodeAux [] (hexEncode [b10, b11, b12, b13, b14, b15]) =
      ([b10, b11, b12, b13, b14, b15], true) := by
    rw [hexDecodeAux_encode [b10, b11, b12, b13, b14, b15] []
      (by simp only [List.mem_cons, List.not_mem_nil, or_false, forall_eq_or_imp,
        forall_eq]; exact ⟨hb10, hb11, hb12, hb13, hb14, hb15⟩)]
    rfl
  have hlen : (uuidBytes
      [b0, b1, b2, b3, b4, b5, b6, b7, b8, b9, b10, b11, b12, b13, b14,
        b15]).length = 36 := rfl
  have hc1 : ¬((uuidBytes
      [b0, b1, b2, b3, b4, b5, b6, b7, b8, b9, b10, b11, b12, b13, b14,
        b15]).length < 32) := by omega
  have hc2 : ¬(45 < (uuidBytes
      [b0, b1, b2, b3, b4, b5, b6, b7, b8, b9, b10, b11, b12, b13, b14,
        b15]).length) := by omega
  have htake : (uuidBytes
      [b0, b1, b2, b3, b4, b5, b6, b7, b8, b9, b10, b11, b12, b13, b14,
        b15]).take 9 =
      [hextable (b0 >>> 4), hextable (b0 &&& 15), hextable (b1 >>> 4),
        hextable (b1 &&& 15), hextable (b2 >>> 4), hextable (b2 &&& 15),
        hextable (b3 >>> 4), hextable (b3 &&& 15), 45] := rfl
  have hc3 : ¬((uuidBytes
      [b0, b1, b2, b3, b4, b5, b6, b7, b8, b9, b10, b11, b12, b13, b14,
        b15]).take 9 = urnPrefix) := by
    rw [htake]
    simp only [urnPrefix, List.cons.injEq, not_and]
    intro hcon
    exact absurd hcon (hextable_ne_117 _ (shift4_lt hb0))
  have hhead : (uuidBytes
      [b0, b1, b2, b3, b4, b5, b6, b7, b8, b9, b10, b11, b12, b13, b14,
        b15]).headD 0 = hextable (b0 >>> 4) := rfl
  have hc4 : ¬((uuidBytes
      [b0, b1, b2, b3, b4, b5, b6, b7, b8, b9, b10, b11, b12, b13, b14,
        b15]).headD 0 = 123) := by
    rw [hhead]
    exact hextable_ne_123 _ (shift4_lt hb0)
  show unmarshalText nilUUID (uuidBytes
      [b0, b1, b2, b3, b4, b5, b6, b7, b8, b9, b10, b11, b12, b13, b14, b15]) = _
  unfold unmarshalText
  rw [if_neg hc1, if_neg hc2, if_neg hc3, if_neg hc4]
  have ht0 : (uuidBytes
      [b0, b1, b2, b3, b4, b5, b6, b7, b8, b9, b10, b11, b12, b13, b14,
        b15]).take 8 = hexEncode [b0, b1, b2, b3] := rfl
  have g0 : groupStep false 0 8 (uuidBytes
      [b0, b1, b2, b3, b4, b5, b6, b7, b8, b9, b10, b11, b12, b13, b14, b15]) =
      ([b0, b1, b2, b3],
        45 :: (hexEncode [b4, b5] ++
          45 :: (hexEncode [b6, b7] ++
            45 :: (hexEncode [b8, b9] ++
              45 :: hexEncode [b10, b11, b12, b13, b14, b15]))), none) := by
    simp only [groupStep, groupBody, hlen, ht0, d0]
    rfl
  have hlen1 : (hexEncode [b4, b5] ++
      45 :: (hexEncode [b6, b7] ++
        45 :: (hexEncode [b8, b9] ++
          45 :: hexEncode [b10, b11, b12, b13, b14, b15]))).length = 27 := rfl
  have ht1 : (hexEncode [b4, b5] ++
      45 :: (hexEncode [b6, b7] ++
        45 :: (hexEncode [b8, b9] ++
          45 :: hexEncode [b10, b11, b12, b13, b14, b15]))).take 4 =
      hexEncode [b4, b5] := rfl
  have g1 : groupStep false 1 4
      (45 :: (hexEncode [b4, b5] ++
        45 :: (hexEncode [b6, b7] ++
          45 :: (hexEncode [b8, b9] ++
            45 :: hexEncode [b10, b11, b12, b13, b14, b15])))) =
      ([b4, b5],
        45 :: (hexEncode [b6, b7] ++
          45 :: (hexEncode [b8, b9] ++
            45 :: hexEncode [b10, b11, b12, b13, b14, b15])), none) := by
    simp only [groupStep, groupBody, hlen1, ht1, d1]
    rfl
  have hlen2 : (hexEncode [b6, b7] ++
      45 :: (hexEncode [b8, b9] ++
        45 :: hexEncode [b10, b11, b12, b13, b14, b15])).length = 22 := rfl
  have ht2 : (hexEncode [b6, b7] ++
      45 :: (hexEncode [b8, b9] ++
        45 :: hexEncode [b10, b11, b12, b13, b14, b15])).take 4 =
      hexEncode [b6, b7] := rfl
  have g2 : groupStep false 2 4
      (45 :: (hexEncode [b6, b7] ++
        45 :: (hexEncode [b8, b9] ++
          45 :: hexEncode [b10, b11, b12, b13, b14, b15]))) =
      ([b6, b7],
        45 :: (hexEncode [b8, b9] ++
          45 :: hexEncode [b10, b11, b12, b13, b14, b15]), none) := by
    simp only [groupStep, groupBody, hlen2, ht2, d2]
    rfl
  have hlen3 : (hexEncode [b8, b9] ++
      45 :: hexEncode [b10, b11, b12, b13, b14, b15]).length = 17 := rfl
  have ht3 : (hexEncode [b8, b9] ++
      45 :: hexEncode [b10, b11, b12, b13, b14, b15]).take 4 =
      hexEncode [b8, b9] := rfl
  have g3 : groupStep false 3 4
      (45 :: (hexEncode [b8, b9] ++
        45 :: hexEncode [b10, b11, b12, b13, b14, b15])) =
      ([b8, b9], 45 :: hexEncode [b10, b11, b12, b13, b14, b15], none) := by
    simp only [groupStep, groupBody, hlen3, ht3, d3]
    rfl
  have hlen4 : (hexEncode [b10, b11, b12, b13, b14, b15]).length = 12 := rfl
  have ht4 : (hexEncode [b10, b11, b12, b13, b14, b15]).take 12 =
      hexEncode [b10, b11, b12, b13, b14, b15] := rfl
  have g4 : groupStep false 4 12
      (45 :: hexEncode [b10, b11, b12, b13, b14, b15]) =
      ([b10, b11, b12, b13, b14, b15], [], none) := by
    simp only [groupStep, groupBody, hlen4, ht4, d4]
    rfl
  show unmarshalGroups nilUUID 0 (uuidBytes
      [b0, b1, b2, b3, b4, b5, b6, b7, b8, b9, b10, b11, b12, b13, b14, b15])
      false 0 [8, 4, 4, 4, 12] = _
  simp only [unmarshalGroups, g0, g1, g2, g3, g4]
  rfl

/-- Witness for C2 at the concrete namespace-DNS UUID value. -/
theorem c2_roundtrip_witness :
    fromString (uuidBytes
        [107, 167, 184, 16, 157, 173, 17, 209, 128, 180, 0, 192, 79, 212, 48,
          200]) =
      ([107, 167, 184, 16, 157, 173, 17, 209, 128, 180, 0, 192, 79, 212, 48,
          200], none) ∧
    fromBytes (marshalBinary
        [107, 167, 184, 16, 157, 173, 17, 209, 128, 180, 0, 192, 79, 212, 48,
          200]) =
      ([107, 167, 184, 16, 157, 173, 17, 209, 128, 180, 0, 192, 79, 212, 48,
          200], none) :=
  c2_roundtrip 107 167 184 16 157 173 17 209 128 180 0 192 79 212 48 200
    (by decide)

end GoUUID
